import Mathlib

/-!
Verification of the to-do list application core (src/script.js).

The development shallowly embeds the state and the pure logic of the script:
the task record, the store mutations (addTask, updateTask, toggleTaskStatus,
deleteTask), the startup load from the persisted blob, and the
filter/search/sort pipeline of getFilteredAndSortedTasks.  Machine details:

* JavaScript strings become Lean String, timestamps become Nat epoch
  milliseconds (the script stores createdAt as an ISO string and compares
  via new Date, which is order-isomorphic to the millisecond value).
* The priority and status fields only ever hold the enum values produced by
  the form selects and by the mutations, so they are embedded as two-resp.
  three-valued inductive types; the string comparisons of the script are
  mirrored through prioName / statusName.
* Array.prototype.sort with a comparator c is, per ES2019, a stable sort by
  the total preorder a before b iff c a b is not positive; it is modelled by
  Mathlib's stable List.insertionSort over that preorder.
* JSON.parse is modelled by an executable recursive-descent recognizer of
  the JSON grammar (jsonParse); returning none models the thrown
  SyntaxError.
-/

namespace Todo

/-- Untyped JavaScript value produced by JSON.parse.  Numbers keep their
lexeme together with a flag telling whether the mantissa is zero (all that
truthiness needs). -/
inductive Json where
  | null : Json
  | boolean : Bool → Json
  | number : Bool → String → Json
  | string : String → Json
  | array : List Json → Json
  | object : List (String × Json) → Json

/-- Whitespace accepted between JSON tokens (space, tab, line feed, carriage
return). -/
def isJsonWs (c : Char) : Bool :=
  c = ' ' || c = Char.ofNat 9 || c = Char.ofNat 10 || c = Char.ofNat 13

/-- Drop leading JSON whitespace. -/
def skipWs : List Char → List Char
  | [] => []
  | c :: cs => if isJsonWs c then skipWs cs else c :: cs

/-- Value of one hexadecimal digit, if the character is one. -/
def hexVal (c : Char) : Option Nat :=
  if c.isDigit then some (c.toNat - 48)
  else if 'a' ≤ c ∧ c ≤ 'f' then some (c.toNat - 87)
  else if 'A' ≤ c ∧ c ≤ 'F' then some (c.toNat - 55)
  else none

/-- Decoded character of a one-letter JSON escape sequence. -/
def escChar (c : Char) : Option Char :=
  if c = '"' then some c
  else if c = '\\' then some c
  else if c = '/' then some c
  else if c = 'b' then some (Char.ofNat 8)
  else if c = 'f' then some (Char.ofNat 12)
  else if c = 'n' then some (Char.ofNat 10)
  else if c = 'r' then some (Char.ofNat 13)
  else if c = 't' then some (Char.ofNat 9)
  else none

/-- Body of a JSON string literal, after the opening quote: characters until
the closing quote, with escape sequences decoded.  The fuel is at least the
number of remaining characters, so it never runs out. -/
def pStrAux : Nat → List Char → List Char → Option (String × List Char)
  | 0, _, _ => none
  | _ + 1, _, [] => none
  | fuel + 1, acc, c :: cs =>
    if c = '"' then some (String.mk acc.reverse, cs)
    else if c = '\\' then
      match cs with
      | [] => none
      | e :: cs2 =>
        if e = 'u' then
          match cs2 with
          | h1 :: h2 :: h3 :: h4 :: cs3 =>
            match hexVal h1, hexVal h2, hexVal h3, hexVal h4 with
            | some v1, some v2, some v3, some v4 =>
              pStrAux fuel (Char.ofNat (((v1 * 16 + v2) * 16 + v3) * 16 + v4) :: acc) cs3
            | _, _, _, _ => none
          | _ => none
        else
          match escChar e with
          | some d => pStrAux fuel (d :: acc) cs2
          | none => none
    else if c.toNat < 32 then none
    else pStrAux fuel (c :: acc) cs

/-- JSON string literal body, after the opening quote. -/
def pStr (cs : List Char) : Option (String × List Char) :=
  pStrAux (cs.length + 1) [] cs

/-- JSON number token: optional minus, integer part without leading zeros,
optional fraction, optional exponent.  Returns the zero-mantissa flag and
the lexeme. -/
def pNum (cs : List Char) : Option (Json × List Char) :=
  let (sign, cs1) :=
    match cs with
    | '-' :: r => (['-'], r)
    | _ => (([] : List Char), cs)
  let (intDigits, rest1) := cs1.span (fun c => c.isDigit)
  if intDigits = [] then none
  else if intDigits.length > 1 ∧ intDigits.head? = some '0' then none
  else
    let fr : Option (List Char × List Char) :=
      match rest1 with
      | '.' :: r2 =>
        match r2.span (fun c => c.isDigit) with
        | ([], _) => none
        | (ds, r3) => some (ds, r3)
      | _ => some ([], rest1)
    match fr with
    | none => none
    | some (fracDigits, rest2) =>
      let ex : Option (List Char × List Char) :=
        match rest2 with
        | e :: r3 =>
          if e = 'e' ∨ e = 'E' then
            let (sgn2, r4) :=
              match r3 with
              | '+' :: r5 => (['+'], r5)
              | '-' :: r5 => (['-'], r5)
              | _ => (([] : List Char), r3)
            match r4.span (fun c => c.isDigit) with
            | ([], _) => none
            | (ds, r5) => some (e :: (sgn2 ++ ds), r5)
          else some ([], rest2)
        | [] => some ([], rest2)
      match ex with
      | none => none
      | some (expChars, rest3) =>
        let isZero := (intDigits ++ fracDigits).all (fun c => c = '0')
        let lexChars :=
          sign ++ intDigits ++ (if fracDigits = [] then [] else '.' :: fracDigits) ++ expChars
        some (Json.number isZero (String.mk lexChars), rest3)

mutual

/-- JSON value, preceded by optional whitespace.  The fuel bounds the
recursion depth; jsonParse passes enough for any input of its length. -/
def pVal : Nat → List Char → Option (Json × List Char)
  | 0, _ => none
  | fuel + 1, cs =>
    match skipWs cs with
    | 'n' :: 'u' :: 'l' :: 'l' :: r => some (Json.null, r)
    | 't' :: 'r' :: 'u' :: 'e' :: r => some (Json.boolean true, r)
    | 'f' :: 'a' :: 'l' :: 's' :: 'e' :: r => some (Json.boolean false, r)
    | '"' :: r =>
      match pStr r with
      | some (s, r1) => some (Json.string s, r1)
      | none => none
    | '[' :: r =>
      match skipWs r with
      | ']' :: r1 => some (Json.array [], r1)
      | _ =>
        match pItems fuel r with
        | some (vs, r1) => some (Json.array vs, r1)
        | none => none
    | '{' :: r =>
      match skipWs r with
      | '}' :: r1 => some (Json.object [], r1)
      | _ =>
        match pMembers fuel r with
        | some (kvs, r1) => some (Json.object kvs, r1)
        | none => none
    | c :: r => if c = '-' ∨ c.isDigit then pNum (c :: r) else none
    | [] => none

/-- Comma-separated JSON values finished by a closing square bracket. -/
def pItems : Nat → List Char → Option (List Json × List Char)
  | 0, _ => none
  | fuel + 1, cs =>
    match pVal fuel cs with
    | none => none
    | some (v, r) =>
      match skipWs r with
      | ',' :: r1 =>
        match pItems fuel r1 with
        | some (vs, r2) => some (v :: vs, r2)
        | none => none
      | ']' :: r1 => some ([v], r1)
      | _ => none

/-- Comma-separated JSON object members finished by a closing curly
bracket. -/
def pMembers : Nat → List Char → Option (List (String × Json) × List Char)
  | 0, _ => none
  | fuel + 1, cs =>
    match skipWs cs with
    | '"' :: r =>
      match pStr r with
      | none => none
      | some (k, r1) =>
        match skipWs r1 with
        | ':' :: r2 =>
          match pVal fuel r2 with
          | none => none
          | some (v, r3) =>
            match skipWs r3 with
            | ',' :: r4 =>
              match pMembers fuel r4 with
              | some (kvs, r5) => some ((k, v) :: kvs, r5)
              | none => none
            | '}' :: r4 => some ([(k, v)], r4)
            | _ => none
        | _ => none
    | _ => none

end

/-- Model of JSON.parse: some value on success, none where the builtin
throws a SyntaxError. -/
def jsonParse (s : String) : Option Json :=
  match pVal (2 * s.length + 2) s.data with
  | some (v, r) => if skipWs r = [] then some v else none
  | none => none

/-- JavaScript truthiness of a parsed value, as used by the loading
expression's logical-or fallback. -/
def jsTruthy : Json → Bool
  | Json.null => false
  | Json.boolean b => b
  | Json.number isZero _ => !isZero
  | Json.string s => !(s = "")
  | Json.array _ => true
  | Json.object _ => true

/-- Failure mode of the startup load. -/
inductive LoadError where
  | syntaxError : LoadError

/-- Startup initialization of the tasks state, embedding the script line
tasks = JSON.parse(localStorage.getItem("tasks")) or-else [].  The argument
is the persisted blob (none when the key is absent; getItem then returns
null, which JSON.parse coerces to the source text "null", yielding the
falsy null value, so the fallback empty array is taken).  A blob that
JSON.parse rejects makes the whole statement throw: that is the error
result. -/
def loadTasks (blob : Option String) : Except LoadError Json :=
  match blob with
  | none => Except.ok (Json.array [])
  | some s =>
    match jsonParse s with
    | none => Except.error LoadError.syntaxError
    | some v => Except.ok (if jsTruthy v then v else Json.array [])

/-- Code points treated as whitespace by the trim of JavaScript strings
(ECMAScript WhiteSpace and LineTerminator). -/
def isJsWhitespace (c : Char) : Bool :=
  let n := c.toNat
  n = 9 || n = 10 || n = 11 || n = 12 || n = 13 || n = 32 || n = 160 || n = 5760
    || (8192 ≤ n && n ≤ 8202) || n = 8232 || n = 8233 || n = 8239 || n = 8287
    || n = 12288 || n = 65279

/-- JavaScript String.prototype.trim: strip leading and trailing
whitespace. -/
def jsTrim (s : String) : String :=
  String.mk (((s.data.dropWhile isJsWhitespace).reverse.dropWhile isJsWhitespace).reverse)

/-- JavaScript String.prototype.toLowerCase, on the ASCII range (the only
case-bearing characters the claims exercise). -/
def jsToLower (s : String) : String :=
  String.mk (s.data.map (fun c =>
    if 'A' ≤ c ∧ c ≤ 'Z' then Char.ofNat (c.toNat + 32) else c))

/-- Whether the first list is an initial segment of the second. -/
def listStarts : List Char → List Char → Bool
  | [], _ => true
  | _ :: _, [] => false
  | p :: ps, c :: cs => p = c && listStarts ps cs

/-- Whether the first list occurs as a contiguous segment of the second. -/
def listContains (pat : List Char) : List Char → Bool
  | [] => listStarts pat []
  | c :: cs => listStarts pat (c :: cs) || listContains pat cs

/-- JavaScript String.prototype.startsWith. -/
def jsStartsWith (s pat : String) : Bool :=
  listStarts pat.data s.data

/-- JavaScript String.prototype.includes: substring containment, with the
empty pattern contained in everything. -/
def jsIncludes (s pat : String) : Bool :=
  listContains pat.data s.data

/-- Splitting on a one-character separator, accumulating the current
segment in reverse. -/
def splitOnCharAux (sep : Char) (acc : List Char) : List Char → List (List Char)
  | [] => [acc.reverse]
  | c :: cs =>
    if c = sep then acc.reverse :: splitOnCharAux sep [] cs
    else splitOnCharAux sep (c :: acc) cs

/-- JavaScript String.prototype.split with a one-character separator. -/
def jsSplitOnChar (sep : Char) (s : String) : List String :=
  (splitOnCharAux sep [] s.data).map String.mk

/-- Task priority: the values offered by the form select. -/
inductive Priority where
  | low : Priority
  | medium : Priority
  | high : Priority
deriving DecidableEq, Repr

/-- Task status: starts Pending, flipped by toggleTaskStatus. -/
inductive Status where
  | pending : Status
  | completed : Status
deriving DecidableEq, Repr

/-- String form of a priority, as it appears in the script's string
comparisons. -/
def prioName : Priority → String
  | Priority.low => "Low"
  | Priority.medium => "Medium"
  | Priority.high => "High"

/-- String form of a status, as it appears in the script's string
comparisons. -/
def statusName : Status → String
  | Status.pending => "Pending"
  | Status.completed => "Completed"

/-- One task record, fields in the order of the object literal built by
addTask.  createdAt is the epoch-millisecond reading of the clock at
creation (the script stores the equivalent ISO string). -/
structure Task where
  id : String
  title : String
  description : String
  priority : Priority
  dueDate : Option String
  status : Status
  createdAt : Nat
deriving DecidableEq, Repr

/-- Form data handed to addTask by handleTaskFormSubmit (title and
description already trimmed there; dueDate is the raw input value, possibly
empty). -/
structure TaskData where
  title : String
  description : String
  dueDate : String
  priority : Priority
deriving DecidableEq, Repr

/-- Identifier generation of the script: the current clock reading,
Date.now().toString(), and nothing else. -/
def generateUniqueId (now : Nat) : String :=
  toString now

/-- The addTask mutation: builds the new task object (status Pending,
createdAt from the clock, empty due date replaced by null via the
logical-or) and prepends it to the array with unshift. -/
def addTask (taskData : TaskData) (now : Nat) (tasks : List Task) : List Task :=
  { id := generateUniqueId now
    title := taskData.title
    description := taskData.description
    priority := taskData.priority
    dueDate := if taskData.dueDate = "" then none else some taskData.dueDate
    status := Status.pending
    createdAt := now } :: tasks

/-- Observable outcome of the new-task form submission: either a task was
added (and the collection persisted), or the empty-title guard returned
early, the spec's ValidationError. -/
inductive SubmitOutcome where
  | added : SubmitOutcome
  | validationError : SubmitOutcome
deriving DecidableEq, Repr

/-- The new-task form handler: trims the title, returns early when it is
empty (leaving the state untouched, nothing persisted), otherwise calls
addTask with the trimmed title and description, the raw due date and the
selected priority. -/
def handleTaskFormSubmit (rawTitle rawDescription rawDueDate : String) (priority : Priority)
    (now : Nat) (tasks : List Task) : List Task × SubmitOutcome :=
  let title := jsTrim rawTitle
  if title = "" then (tasks, SubmitOutcome.validationError)
  else
    (addTask { title := title, description := jsTrim rawDescription,
               dueDate := rawDueDate, priority := priority } now tasks,
     SubmitOutcome.added)

/-- Observable outcome of an update or toggle: either the task with the
given id was found and mutated (and the collection persisted), or
findIndex returned minus one and the function did nothing, the spec's
NotFoundError. -/
inductive OpOutcome where
  | done : OpOutcome
  | notFound : OpOutcome
deriving DecidableEq, Repr

/-- Status flip performed by toggleTaskStatus on the found task: Completed
becomes Pending, anything else becomes Completed. -/
def flipStatus (t : Task) : Task :=
  { t with status := if t.status = Status.completed then Status.pending else Status.completed }

/-- The toggleTaskStatus mutation: findIndex on the id; when found, the
first matching task's status is flipped in place; when absent, nothing
happens at all. -/
def toggleTaskStatus (id : String) : List Task → List Task × OpOutcome
  | [] => ([], OpOutcome.notFound)
  | t :: ts =>
    if t.id = id then (flipStatus t :: ts, OpOutcome.done)
    else
      let r := toggleTaskStatus id ts
      (t :: r.1, r.2)

/-- Partial update payload of updateTask.  The callers (the edit form) only
ever supply the four editable fields, so the spread merge can touch
nothing else; an absent field leaves the stored value. -/
structure UpdateData where
  title : Option String
  description : Option String
  dueDate : Option String
  priority : Option Priority
deriving DecidableEq, Repr

/-- The object spread of updateTask: stored task overlaid with the provided
fields. -/
def mergeTask (t : Task) (u : UpdateData) : Task :=
  { t with
    title := u.title.getD t.title
    description := u.description.getD t.description
    dueDate := match u.dueDate with | some d => some d | none => t.dueDate
    priority := u.priority.getD t.priority }

/-- The updateTask mutation: findIndex on the id; when found, the first
matching task is replaced by its spread merge with the payload; when
absent, nothing happens at all. -/
def updateTask (id : String) (u : UpdateData) : List Task → List Task × OpOutcome
  | [] => ([], OpOutcome.notFound)
  | t :: ts =>
    if t.id = id then (mergeTask t u :: ts, OpOutcome.done)
    else
      let r := updateTask id u ts
      (t :: r.1, r.2)

/-- The deleteTask mutation (fallback path without the card animation):
keeps every task whose id differs. -/
def deleteTask (id : String) (tasks : List Task) : List Task :=
  tasks.filter (fun task => task.id ≠ id)

/-- Search stage of getFilteredAndSortedTasks: the control value is
lowercased and trimmed; when the result is nonempty, only tasks whose
lowercased title or description contains it are kept. -/
def searchStage (rawSearch : String) (tasks : List Task) : List Task :=
  let searchTerm := jsTrim (jsToLower rawSearch)
  if searchTerm = "" then tasks
  else
    tasks.filter (fun task =>
      jsIncludes (jsToLower task.title) searchTerm
        || jsIncludes (jsToLower task.description) searchTerm)

/-- Filter stage of getFilteredAndSortedTasks: All passes everything;
Completed and Pending match the status; a value starting with the
Priority- marker matches the priority named by its second dash-separated
segment; any other value falls through every branch and filters nothing. -/
def filterStage (filterValue : String) (tasks : List Task) : List Task :=
  if filterValue ≠ "All" then
    if filterValue = "Completed" ∨ filterValue = "Pending" then
      tasks.filter (fun task => statusName task.status = filterValue)
    else if jsStartsWith filterValue ("Priority-") then
      let priority := (jsSplitOnChar '-' filterValue).getD 1 ""
      tasks.filter (fun task => prioName task.priority = priority)
    else tasks
  else tasks

/-- Weight map of the priority-desc comparator: High 3, Medium 2, Low 1. -/
def prioMapDesc : Priority → Int
  | Priority.high => 3
  | Priority.medium => 2
  | Priority.low => 1

/-- Weight map of the priority-asc comparator: High 1, Medium 2, Low 3. -/
def prioMapAsc : Priority → Int
  | Priority.high => 1
  | Priority.medium => 2
  | Priority.low => 3

/-- Weight map of the status-desc comparator: Pending 1, Completed 2. -/
def statusMap : Status → Int
  | Status.pending => 1
  | Status.completed => 2

/-- The switch inside the sort comparator of getFilteredAndSortedTasks,
branch by branch; an unrecognized sort key hits the default returning
zero. -/
def cmpForKey (sortValue : String) (a b : Task) : Int :=
  if sortValue = "date-desc" then (b.createdAt : Int) - (a.createdAt : Int)
  else if sortValue = "date-asc" then (a.createdAt : Int) - (b.createdAt : Int)
  else if sortValue = "priority-desc" then prioMapDesc b.priority - prioMapDesc a.priority
  else if sortValue = "priority-asc" then prioMapAsc b.priority - prioMapAsc a.priority
  else if sortValue = "status-desc" then statusMap a.status - statusMap b.status
  else 0

/-- Sort stage of getFilteredAndSortedTasks.  Array.prototype.sort with a
consistent comparator c is, per ES2019, the stable sort by the total
preorder in which a precedes b iff c a b is not positive; the stable
List.insertionSort over that preorder realizes exactly that ordering. -/
def sortStage (sortValue : String) (tasks : List Task) : List Task :=
  tasks.insertionSort (fun a b => cmpForKey sortValue a b ≤ 0)

/-- The full query pipeline of getFilteredAndSortedTasks: copy of the
stored array, then search, then filter, then sort. -/
def getFilteredAndSortedTasks (rawSearch filterValue sortValue : String)
    (tasks : List Task) : List Task :=
  sortStage sortValue (filterStage filterValue (searchStage rawSearch tasks))

/-- Sample record used by the concrete checks: a Low-priority pending
task. -/
def sampleLow : Task :=
  { id := "1", title := "a", description := "", priority := Priority.low,
    dueDate := none, status := Status.pending, createdAt := 1 }

/-- Sample record used by the concrete checks: a High-priority pending
task. -/
def sampleHigh : Task :=
  { id := "2", title := "b", description := "", priority := Priority.high,
    dueDate := none, status := Status.pending, createdAt := 2 }

/-- Sample record used by the concrete checks: a Medium-priority task,
earlier in input order than sampleMedB. -/
def sampleMedA : Task :=
  { id := "3", title := "c", description := "", priority := Priority.medium,
    dueDate := none, status := Status.pending, createdAt := 3 }

/-- Sample record used by the concrete checks: a second Medium-priority
task. -/
def sampleMedB : Task :=
  { id := "4", title := "d", description := "", priority := Priority.medium,
    dueDate := none, status := Status.pending, createdAt := 4 }

/-- C1: the claim says startup tolerates a malformed persisted blob, but the
load expression only guards the falsy results of JSON.parse; a non-JSON
blob such as "oops" makes JSON.parse throw, so construction fails.  An
absent blob and a well-formed empty array do initialize the empty
collection. -/
theorem c1_malformed_blob_crashes_startup :
    loadTasks (some ("oops")) = Except.error LoadError.syntaxError
      ∧ loadTasks none = Except.ok (Json.array [])
      ∧ loadTasks (some ("[]")) = Except.ok (Json.array []) :=
  ⟨rfl, rfl, rfl⟩

/-- C2, counterexample: the two sort keys do not produce the same ordering;
on a Low task followed by a High task, priority-asc keeps Low first while
priority-desc puts High first. -/
theorem c2_counterexample :
    sortStage ("priority-asc") [sampleLow, sampleHigh]
      ≠ sortStage ("priority-desc") [sampleLow, sampleHigh] := by
  decide

/-- C2, amended: the priority-asc comparator is the pointwise negation of
the priority-desc comparator — the inverted weight map composed with the
same subtraction direction yields Low-first order, the exact reverse of
priority-desc, not the same High-first order. -/
theorem c2_amended_asc_is_negated_desc :
    ∀ a b : Task,
      cmpForKey ("priority-asc") a b = -(cmpForKey ("priority-desc") a b) := by
  intro a b
  obtain ⟨_, _, _, pa, _, _, _⟩ := a
  obtain ⟨_, _, _, pb, _, _, _⟩ := b
  show prioMapAsc pb - prioMapAsc pa = -(prioMapDesc pb - prioMapDesc pa)
  cases pa <;> cases pb <;> decide

/-- C3: the claim says ids stay unique within one millisecond, but the
generator is the bare clock reading, so two creations with the same clock
value give the whole collection two equal leading ids. -/
theorem c3_same_millisecond_ids_collide :
    ∀ (d1 d2 : TaskData) (now : Nat) (tasks : List Task),
      (addTask d1 now (addTask d2 now tasks)).map Task.id
        = generateUniqueId now :: generateUniqueId now :: tasks.map Task.id := by
  intro d1 d2 now tasks
  rfl

/-- C4: a title that is empty after trimming makes the submit handler
return before touching the store: no task is added, nothing is persisted,
and the outcome is the validation failure. -/
theorem c4_empty_title_is_validation_error :
    ∀ (rawTitle rawDescription rawDueDate : String) (priority : Priority)
      (now : Nat) (tasks : List Task),
      jsTrim rawTitle = "" →
      handleTaskFormSubmit rawTitle rawDescription rawDueDate priority now tasks
        = (tasks, SubmitOutcome.validationError) := by
  intro rawTitle rawDescription rawDueDate priority now tasks h
  simp [handleTaskFormSubmit, h]

/-- C4, witness: the all-blank title is rejected and the empty store is
left untouched. -/
theorem c4_witness :
    jsTrim ("   ") = ""
      ∧ handleTaskFormSubmit ("   ") ("milk") ("") Priority.medium 5 []
          = ([], SubmitOutcome.validationError) :=
  ⟨by decide, c4_empty_title_is_validation_error _ _ _ _ _ _ (by decide)⟩

/-- C5: when no stored task carries the requested id, both toggle and
update take the not-found branch and leave the collection exactly as it
was. -/
theorem c5_missing_id_not_found_noop :
    ∀ (id : String) (u : UpdateData) (tasks : List Task),
      (∀ t ∈ tasks, t.id ≠ id) →
      toggleTaskStatus id tasks = (tasks, OpOutcome.notFound)
        ∧ updateTask id u tasks = (tasks, OpOutcome.notFound) := by
  intro id u tasks h
  induction tasks with
  | nil => exact ⟨rfl, rfl⟩
  | cons t ts ih =>
    have ht : ¬(t.id = id) := h t (List.mem_cons_self t ts)
    have hts : ∀ x ∈ ts, x.id ≠ id := fun x hx => h x (List.mem_cons_of_mem t hx)
    obtain ⟨ih1, ih2⟩ := ih hts
    constructor
    · simp [toggleTaskStatus, ht, ih1]
    · simp [updateTask, ht, ih2]

/-- C5, witness: toggling or updating the absent id zzz on a one-task store
changes nothing and reports the not-found outcome. -/
theorem c5_witness :
    (∀ t ∈ [sampleLow], t.id ≠ "zzz")
      ∧ toggleTaskStatus ("zzz") [sampleLow] = ([sampleLow], OpOutcome.notFound)
      ∧ updateTask ("zzz") { title := none, description := none, dueDate := none, priority := none }
            [sampleLow]
          = ([sampleLow], OpOutcome.notFound) :=
  ⟨by decide,
   (c5_missing_id_not_found_noop ("zzz")
      { title := none, description := none, dueDate := none, priority := none }
      [sampleLow] (by decide)).1,
   (c5_missing_id_not_found_noop ("zzz")
      { title := none, description := none, dueDate := none, priority := none }
      [sampleLow] (by decide)).2⟩

/-- C6: update merges only the provided fields — every task keeps its id
and createdAt (and status, which the payload cannot carry), the merge
returns the stored values for absent fields, and the empty partial leaves
the whole collection unchanged. -/
theorem c6_update_merges_only_provided_fields :
    ∀ (id : String) (u : UpdateData) (tasks : List Task),
      ((updateTask id u tasks).1.map (fun t => (t.id, t.createdAt))
          = tasks.map (fun t => (t.id, t.createdAt)))
        ∧ (updateTask id { title := none, description := none, dueDate := none, priority := none }
              tasks).1 = tasks
        ∧ (∀ t : Task, (mergeTask t u).id = t.id ∧ (mergeTask t u).createdAt = t.createdAt
              ∧ (mergeTask t u).status = t.status)
        ∧ (∀ t : Task,
            mergeTask t { title := none, description := none, dueDate := none, priority := none }
              = t) := by
  intro id u tasks
  have hempty : ∀ t : Task,
      mergeTask t { title := none, description := none, dueDate := none, priority := none } = t :=
    fun t => rfl
  refine ⟨?_, ?_, fun t => ⟨rfl, rfl, rfl⟩, hempty⟩
  · induction tasks with
    | nil => rfl
    | cons t ts ih =>
      by_cases h : t.id = id
      · simp [updateTask, h, mergeTask]
      · simp [updateTask, h, ih]
  · induction tasks with
    | nil => rfl
    | cons t ts ih =>
      by_cases h : t.id = id
      · simp [updateTask, h, hempty]
      · simp [updateTask, h, ih]

/-- C7: with a nonempty trimmed title, submitting the form prepends exactly
one new task carrying the trimmed title and description, the chosen
priority, the entered due date (empty meaning none), status Pending and
the clock reading as createdAt, and every previously stored task is
untouched. -/
theorem c7_create_prepends_pending_task :
    ∀ (rawTitle rawDescription rawDueDate : String) (priority : Priority)
      (now : Nat) (tasks : List Task),
      jsTrim rawTitle ≠ "" →
      handleTaskFormSubmit rawTitle rawDescription rawDueDate priority now tasks
        = ({ id := generateUniqueId now, title := jsTrim rawTitle,
             description := jsTrim rawDescription, priority := priority,
             dueDate := if rawDueDate = "" then none else some rawDueDate,
             status := Status.pending, createdAt := now } :: tasks,
           SubmitOutcome.added) := by
  intro rawTitle rawDescription rawDueDate priority now tasks h
  simp [handleTaskFormSubmit, addTask, h]

/-- C7, witness: one concrete submission prepends the expected Pending
task to the empty store. -/
theorem c7_witness :
    jsTrim ("  Buy milk ") ≠ ""
      ∧ handleTaskFormSubmit ("  Buy milk ") (" today ") ("") Priority.high 7 []
          = ([{ id := "7", title := "Buy milk", description := "today",
                priority := Priority.high, dueDate := none,
                status := Status.pending, createdAt := 7 }], SubmitOutcome.added) :=
  ⟨by decide, c7_create_prepends_pending_task _ _ _ _ _ _ (by decide)⟩

/-- C8: the query sort is stable — any two tasks tied by the comparator of
the selected key keep their relative input order (in particular two tasks
of identical priority under priority-desc), and an unrecognized key, such
as none, returns the input order exactly. -/
theorem c8_sort_is_stable :
    (∀ (sortValue : String) (l : List Task) (a b : Task),
        List.Sublist [a, b] l → cmpForKey sortValue a b = 0 →
        List.Sublist [a, b] (sortStage sortValue l))
      ∧ (∀ sortValue : String,
          sortValue ∉
            (["date-desc", "date-asc", "priority-desc", "priority-asc", "status-desc"] :
              List String) →
          ∀ l : List Task, sortStage sortValue l = l) := by
  constructor
  · intro sortValue l a b hsub hcmp
    exact List.pair_sublist_insertionSort (le_of_eq hcmp) hsub
  · intro sortValue hnot l
    have hz : ∀ a b : Task, cmpForKey sortValue a b = 0 := by
      intro a b
      unfold cmpForKey
      split_ifs with h1 h2 h3 h4 h5
      · subst h1; simp at hnot
      · subst h2; simp at hnot
      · subst h3; simp at hnot
      · subst h4; simp at hnot
      · subst h5; simp at hnot
      · rfl
    exact List.Sorted.insertionSort_eq
      (List.pairwise_of_forall_mem_list fun a _ b _ => le_of_eq (hz a b))

/-- C8, witness: the two Medium tasks keep their input order under
priority-desc, and an unrecognized key leaves a list unchanged. -/
theorem c8_witness :
    List.Sublist [sampleMedA, sampleMedB]
        (sortStage ("priority-desc") [sampleMedA, sampleHigh, sampleMedB])
      ∧ sortStage ("nonsense") [sampleLow] = [sampleLow] :=
  ⟨c8_sort_is_stable.1 ("priority-desc") [sampleMedA, sampleHigh, sampleMedB]
      sampleMedA sampleMedB (by decide) (by decide),
   c8_sort_is_stable.2 ("nonsense") (by decide) [sampleLow]⟩

/-- C9: toggling a status twice restores the collection exactly, and a
single toggle changes no field other than status on any task. -/
theorem c9_toggle_involutive :
    ∀ (id : String) (tasks : List Task),
      (toggleTaskStatus id (toggleTaskStatus id tasks).1).1 = tasks
        ∧ (toggleTaskStatus id tasks).1.map
              (fun t => (t.id, t.title, t.description, t.priority, t.dueDate, t.createdAt))
            = tasks.map
                (fun t => (t.id, t.title, t.description, t.priority, t.dueDate, t.createdAt)) := by
  intro id tasks
  have hflip : ∀ t : Task, flipStatus (flipStatus t) = t := by
    intro t
    obtain ⟨i, ti, de, p, du, st, ca⟩ := t
    cases st <;> rfl
  constructor
  · induction tasks with
    | nil => rfl
    | cons t ts ih =>
      by_cases h : t.id = id
      · have hid2 : (flipStatus t).id = id := h
        simp [toggleTaskStatus, h, hid2, hflip t]
      · simp [toggleTaskStatus, h, ih]
  · induction tasks with
    | nil => rfl
    | cons t ts ih =>
      by_cases h : t.id = id
      · simp [toggleTaskStatus, flipStatus, h]
      · simp [toggleTaskStatus, h, ih]

/-- C10: a filter value matching none of the documented shapes falls
through every branch of the filter stage, passing all tasks exactly like
All. -/
theorem c10_unrecognized_filter_passes_all :
    ∀ (filterValue : String) (tasks : List Task),
      filterValue ≠ "All" → filterValue ≠ "Completed" → filterValue ≠ "Pending" →
      jsStartsWith filterValue ("Priority-") = false →
      filterStage filterValue tasks = tasks
        ∧ filterStage filterValue tasks = filterStage ("All") tasks := by
  intro fv tasks h1 h2 h3 h4
  have hid : filterStage fv tasks = tasks := by
    simp [filterStage, h1, h2, h3, h4]
  exact ⟨hid, hid.trans (rfl : tasks = filterStage ("All") tasks)⟩

/-- C10, witness: the unrecognized filter value Banana passes the sample
store through unchanged, just like All. -/
theorem c10_witness :
    filterStage ("Banana") [sampleLow] = [sampleLow]
      ∧ filterStage ("Banana") [sampleLow] = filterStage ("All") [sampleLow] :=
  c10_unrecognized_filter_passes_all ("Banana") [sampleLow]
    (by decide) (by decide) (by decide) (by decide)

end Todo
